import Mathlib

/-!
Shallow embedding of the recommendation engine of
`src/backend/controllers/recommender.controller.js` (the `getWeights` helper
and the `getSuggestions` handler), together with theorems settling the
behavioural claims about it.

Modelling conventions:
* JavaScript string values that may be `undefined`/`null` are `Option String`;
  JS truthiness (`undefined`, `null` and `""` are falsy) is the `truthy`
  predicate and `a || b` is `jsOr`.
* MongoDB stores are lists carried in an environment record; each query is
  translated to the corresponding list operation (`find` with a filter is
  `List.filter`, `findOne` is `List.find?`, `$in` is membership, a
  descending-`createdAt` `findOne` + `sort` is a maximum scan).
* Every `await` that may reject is given a failure flag (or a `Lookup` value)
  in the environment; the controller's outer `try/catch` maps any such
  rejection to the 500 response, exactly as in the source.
* The external scoring service (`RecommenderService.getRecommendedResources`)
  is not part of the embedded file; its outcome is an environment field, with
  `Lookup.err` standing for a rejected call (caught at line 169 of the
  source).
* `formattedResources.sort(() => 0.5 - Math.random())` is an in-place
  shuffle; it is modelled by an arbitrary function `shuffle` in the
  environment, constrained to be a permutation where a theorem needs it.
-/

namespace Optima

/-- A JavaScript string-valued field that may be `undefined`/`null`. -/
abbrev JStr := Option String

/-- JS truthiness for string values: `undefined`, `null` and `""` are falsy. -/
def truthy : JStr → Bool
  | none => false
  | some s => s != ""

/-- JS `a || b` on string values: `a` when truthy, otherwise `b`. -/
def jsOr (a b : JStr) : JStr := if truthy a then a else b

/-- A `{ skillId, level }` entry of `user.skills` (identifiers already in
canonical string form, as produced by `.toString()`). -/
structure UserSkill where
  skillId : String
  level : Nat
deriving DecidableEq

/-- A `{ skillId, targetLevel }` entry of `req.body.targetSkills`. -/
structure TargetSkill where
  skillId : String
  targetLevel : Nat
deriving DecidableEq

/-- The weight configuration: the fields of `DEFAULT_WEIGHTS` at the top of
the controller. -/
structure Weights where
  skill_gap : ℚ
  skill_relevance : ℚ
  difficulty_match : ℚ
  collaborative : ℚ
  resource_type : ℚ
  skill_similarity : ℚ
deriving DecidableEq

/-- The hard-coded `DEFAULT_WEIGHTS` constant (controller lines 13-20). -/
def DEFAULT_WEIGHTS : Weights :=
  { skill_gap := 30/100, skill_relevance := 20/100, difficulty_match := 20/100,
    collaborative := 15/100, resource_type := 0, skill_similarity := 15/100 }

/-- `user.companySettings`: may carry admin-configured `aiWeights`. -/
structure CompanySettings where
  aiWeights : Option Weights
deriving DecidableEq

/-- A document of the `User` store. -/
structure User where
  _id : String
  company : String
  role : String
  name : String
  skills : List UserSkill
  companySettings : Option CompanySettings
deriving DecidableEq

/-- A document of the `Resource` store. `provider` may be absent, `createdBy`
is the creator's user id. -/
structure Resource where
  _id : String
  title : String
  provider : JStr
  type : String
  url : String
  duration : String
  createdBy : String
  skill : JStr
deriving DecidableEq

/-- A document of the `IDP` (development plan) store. `createdAt` is a
timestamp, larger = more recent. -/
structure Idp where
  employee : String
  status : String
  goals : String
  createdAt : Nat
  recommendedResources : List String
deriving DecidableEq

/-- A document of the `Skill` store (taxonomy entry). -/
structure Skill where
  _id : String
  name : String
deriving DecidableEq

/-- A document of the `PerformanceReport` store (opaque except creation
time and id). -/
structure PerfReport where
  _id : String
  createdAt : Nat
deriving DecidableEq

/-- Outcome of a fallible lookup: `err` models a rejected promise / a thrown
exception. -/
inductive Lookup (α : Type) where
  | ok (a : α)
  | err
deriving DecidableEq

/-- Tier 2 + tier 3 of weight resolution (controller lines 33-44): a present
legacy file that parses wins; a present file whose read/parse throws is
caught by the inner `catch` and falls to the defaults; an absent file falls
to the defaults. -/
def legacyTier : Option (Lookup Weights) → Weights
  | some (.ok w) => w
  | some .err => DEFAULT_WEIGHTS
  | none => DEFAULT_WEIGHTS

/-- `getWeights` (controller lines 23-45). `adminLookupFails` models
`User.findOne` rejecting: the outer `catch` (line 40) then returns
`DEFAULT_WEIGHTS` directly, without consulting the legacy file. -/
def getWeights (users : List User) (company : String) (adminLookupFails : Bool)
    (legacyFile : Option (Lookup Weights)) : Weights :=
  if adminLookupFails then DEFAULT_WEIGHTS
  else
    match users.find? (fun u => u.company == company && u.role == "admin") with
    | some adminUser =>
      match adminUser.companySettings with
      | some cs =>
        match cs.aiWeights with
        | some w => w
        | none => legacyTier legacyFile
      | none => legacyTier legacyFile
    | none => legacyTier legacyFile

/-- The admin-weights lookup (tier 1) in isolation: the weights attached to
the tenant's admin account, if any. -/
def adminWeights (users : List User) (company : String) : Option Weights :=
  (users.find? (fun u => u.company == company && u.role == "admin")).bind
    (fun a => a.companySettings.bind (fun cs => cs.aiWeights))

/-- An item of `aiResponse.recommendations` as the reconciler sees it: every
field may be absent, and the identifier may sit in `resourceId`, `_id` or
`id`. -/
structure OracleRec where
  resourceId : JStr
  _id : JStr
  id : JStr
  title : JStr
  provider : JStr
  type : JStr
  url : JStr
  duration : JStr
  author : JStr
deriving DecidableEq

/-- An element of `formattedResources` (controller lines 139-145): ids are
strings, `provider` has been enriched, `createdByName` is the populated
creator's name (`populate("createdBy", "name")`). -/
structure FormattedResource where
  _id : String
  title : String
  provider : String
  type : String
  url : String
  duration : String
  createdByName : Option String
deriving DecidableEq

/-- The per-request environment: the authenticated requester (`req.user`),
the request body, the stores, and the outcome of each fallible external
step. -/
structure Env where
  reqUserId : String
  reqUserCompany : String
  targetSkills : List TargetSkill
  users : List User
  skills : List Skill
  resources : List Resource
  idps : List Idp
  reports : List PerfReport
  adminLookupFails : Bool
  legacyFile : Option (Lookup Weights)
  oracle : Lookup (List OracleRec)
  shuffle : List FormattedResource → List FormattedResource
  failFindUser : Bool
  failLatestIdp : Bool
  failReports : Bool
  failSkillFind : Bool
  failCompanyUsers : Bool
  failResourceFind : Bool
  failPeerUsers : Bool
  failPeerIdps : Bool

/-- Ids of the users of the requester's company (controller lines 92-93). -/
def companyUserIds (env : Env) : List String :=
  (env.users.filter (fun u => u.company == env.reqUserCompany)).map (fun u => u._id)

/-- `Resource.find({ createdBy: { $in: companyUserIds } })` (lines 96-98). -/
def allResourcesOf (env : Env) : List Resource :=
  env.resources.filter (fun r => (companyUserIds env).contains r.createdBy)

/-- One element of the `formattedResources` map (lines 139-145): id
stringified, provider enriched from the populated creator when absent or
`"Unknown"`. -/
def formatResource (env : Env) (r : Resource) : FormattedResource :=
  let creator := env.users.find? (fun u => u._id == r.createdBy)
  { _id := r._id, title := r.title,
    provider :=
      if truthy r.provider && r.provider != some "Unknown" then r.provider.getD ""
      else match creator with
        | some u => u.name
        | none => "Unknown",
    type := r.type, url := r.url, duration := r.duration,
    createdByName := creator.map (fun u => u.name) }

/-- `formattedResources` (lines 139-145). -/
def formattedResourcesOf (env : Env) : List FormattedResource :=
  (allResourcesOf env).map (formatResource env)

/-- The `$in: ['approved', 'pending', 'draft']` status filter of the
goal-text query (line 71). -/
def eligibleStatus (s : String) : Bool :=
  s == "approved" || s == "pending" || s == "draft"

/-- The documents matching the goal-text query's filter (lines 69-72). -/
def requesterIdps (env : Env) : List Idp :=
  env.idps.filter (fun i => i.employee == env.reqUserId && eligibleStatus i.status)

/-- Scan for the document a descending-`createdAt` sort puts first: the
maximum of `createdAt`, earliest list position winning ties. -/
def pickLatest : List Idp → Option Idp → Option Idp
  | [], best => best
  | i :: rest, none => pickLatest rest (some i)
  | i :: rest, some j => pickLatest rest (some (if j.createdAt < i.createdAt then i else j))

/-- `IDP.findOne({...}).sort({ createdAt: -1 })` (lines 69-72). -/
def latestIdp (env : Env) : Option Idp := pickLatest (requesterIdps env) none

/-- `goalText = latestIdp ? latestIdp.goals : ""` (line 74). -/
def goalTextOf (env : Env) : String :=
  match latestIdp env with
  | some i => i.goals
  | none => ""

/-- Descending-`createdAt` insertion for the performance-report sort. -/
def insertDesc (r : PerfReport) : List PerfReport → List PerfReport
  | [] => [r]
  | x :: xs => if x.createdAt < r.createdAt then r :: x :: xs else x :: insertDesc r xs

/-- Stable descending sort of the performance reports. -/
def sortReportsDesc : List PerfReport → List PerfReport
  | [] => []
  | x :: xs => insertDesc x (sortReportsDesc xs)

/-- `PerformanceReport.find({employee}).sort({createdAt:-1}).limit(5)`
(lines 77-80); the employee filter is implicit in `env.reports` holding the
requester's reports. -/
def reportsOf (env : Env) : List PerfReport :=
  (sortReportsDesc env.reports).take 5

/-- The `$in: ["approved", "completed"]` status filter of the peer-IDP query
(line 110). -/
def peerStatus (s : String) : Bool :=
  s == "approved" || s == "completed"

/-- `User.find({ _id: { $ne: userId }, company })` (lines 102-107). -/
def allPeerUsers (env : Env) : List User :=
  env.users.filter (fun u => u._id != env.reqUserId && u.company == env.reqUserCompany)

/-- `IDP.find({ status: { $in: [...] }, employee: { $in: peer ids } })`
(lines 109-112). -/
def peerIdpsOf (env : Env) : List Idp :=
  env.idps.filter (fun i => peerStatus i.status && (allPeerUsers env).any (fun u => u._id == i.employee))

/-- First-occurrence deduplication with an accumulator of already-seen
strings: the insertion-order view of a JS `Set`. -/
def dedupStrings (seen : List String) : List String → List String
  | [] => []
  | s :: rest =>
    if seen.contains s then dedupStrings seen rest
    else s :: dedupStrings (s :: seen) rest

/-- One peer's consumed-resource set (`userResourcesMap`, lines 115-120, then
`Array.from`, line 128): the grouped `recommendedResources` ids of that
peer's approved/completed plans, duplicates collapsed in insertion order. -/
def peerResources (env : Env) (pid : String) : List String :=
  dedupStrings [] (((peerIdpsOf env).filter (fun i => i.employee == pid)).flatMap
    (fun i => i.recommendedResources))

/-- A `{ skillId, level }` entry of the oracle payload. -/
structure PayloadSkill where
  skillId : String
  level : Nat
deriving DecidableEq

/-- An element of `peer_data`. -/
structure PeerEntry where
  userId : String
  skills : List PayloadSkill
  resources : List String
deriving DecidableEq

/-- `peerData` (lines 122-129): one entry per same-company peer, with
`s.level || 1` defaulting and the empty-skills-and-empty-resources filter. -/
def peerDataOf (env : Env) : List PeerEntry :=
  ((allPeerUsers env).map (fun peer =>
    { userId := peer._id,
      skills := peer.skills.map (fun s =>
        ({ skillId := s.skillId, level := if s.level == 0 then 1 else s.level } : PayloadSkill)),
      resources := peerResources env peer._id })).filter
    (fun p => p.resources.length > 0 || p.skills.length > 0)

/-- `userSkills` (lines 62-65). -/
def userSkillsOf (user : User) : List PayloadSkill :=
  user.skills.map (fun s => { skillId := s.skillId, level := s.level })

/-- The payload handed to the scoring service (lines 150-162). -/
structure Payload where
  user_skills : List PayloadSkill
  skills_to_improve : List TargetSkill
  performance_reports : List PerfReport
  resources : List FormattedResource
  skills : List Skill
  peer_data : List PeerEntry
  limit : Nat
  persona : String
  custom_weights : Weights
  goal_text : String
deriving DecidableEq

/-- `payload` (lines 150-162), for the found requester `user`. -/
def payloadOf (env : Env) (user : User) : Payload :=
  { user_skills := userSkillsOf user,
    skills_to_improve := env.targetSkills,
    performance_reports := reportsOf env,
    resources := formattedResourcesOf env,
    skills := env.skills,
    peer_data := peerDataOf env,
    limit := 10,
    persona := user.role,
    custom_weights := getWeights env.users user.company env.adminLookupFails env.legacyFile,
    goal_text := goalTextOf env }

/-- One fallback recommendation (lines 174-182). -/
def fallbackRec (r : FormattedResource) : OracleRec :=
  { resourceId := some r._id, _id := none, id := none,
    title := some r.title, provider := some r.provider, type := some r.type,
    url := some r.url, duration := some r.duration,
    author := some (match r.createdByName with | some n => n | none => "Unknown") }

/-- The fallback list `shuffled.slice(0, 10).map(...)` (line 174), applied to
the already-shuffled candidate list. -/
def fallbackRecs (shuffled : List FormattedResource) : List OracleRec :=
  (shuffled.take 10).map fallbackRec

/-- `const rId = rec.resourceId || rec._id || rec.id` (line 192). -/
def resolveId (rc : OracleRec) : JStr :=
  jsOr (jsOr rc.resourceId rc._id) rc.id

/-- `formattedResources.find(fr => fr._id === rId)` (line 193): strict
equality of a string field against a string-or-undefined value. -/
def findOriginal (cands : List FormattedResource) (rId : JStr) : Option FormattedResource :=
  cands.find? (fun fr => some fr._id == rId)

/-- The provider backfill applied to one recommendation (lines 193-197). -/
def backfillRec (cands : List FormattedResource) (rc : OracleRec) : OracleRec :=
  match findOriginal cands (resolveId rc) with
  | some originalRes =>
    if !truthy rc.provider || rc.provider == some "Unknown" then
      { rc with provider := some originalRes.provider }
    else rc
  | none => rc

/-- The reconciliation loop (lines 188-204): walk once in order, backfill the
provider, keep a recommendation only when its resolved id is truthy and
unseen. -/
def dedupRecs (cands : List FormattedResource) (seen : List String) :
    List OracleRec → List OracleRec
  | [] => []
  | rc :: rest =>
    let rc' := backfillRec cands rc
    match resolveId rc with
    | some s =>
      if s != "" && !seen.contains s then rc' :: dedupRecs cands (s :: seen) rest
      else dedupRecs cands seen rest
    | none => dedupRecs cands seen rest

/-- The HTTP outcome of the handler: 404, 500, or 200 with the reconciled
recommendation list. -/
inductive Response where
  | notFound
  | serverError
  | ok (recs : List OracleRec)
deriving DecidableEq

/-- `getSuggestions` (lines 47-214). Each failure flag is one `await`
rejecting, routed to the outer `catch` (lines 210-213). On oracle failure the
fallback samples from the shuffled candidate list, and — because the random
comparator `sort` mutated `formattedResources` in place — the reconciler on
that path also looks candidates up in the shuffled list. -/
def getSuggestions (env : Env) : Response :=
  if env.failFindUser then .serverError
  else
    match env.users.find? (fun u => u._id == env.reqUserId) with
    | none => .notFound
    | some _user =>
      if env.failLatestIdp then .serverError
      else if env.failReports then .serverError
      else if env.failSkillFind then .serverError
      else if env.failCompanyUsers then .serverError
      else if env.failResourceFind then .serverError
      else if env.failPeerUsers then .serverError
      else if env.failPeerIdps then .serverError
      else
        match env.oracle with
        | .ok recs => .ok (dedupRecs (formattedResourcesOf env) [] recs)
        | .err =>
          let shuffled := env.shuffle (formattedResourcesOf env)
          .ok (dedupRecs shuffled [] (fallbackRecs shuffled))

/-- All aggregation-stage awaits resolve. -/
def noAggFailure (env : Env) : Bool :=
  !env.failFindUser && !env.failLatestIdp && !env.failReports && !env.failSkillFind &&
    !env.failCompanyUsers && !env.failResourceFind && !env.failPeerUsers && !env.failPeerIdps

/-- Modelled from the spec: the scoring oracle (the external Python scoring
service and its client `RecommenderService.getRecommendedResources`, whose
sources are not part of the embedded controller file) caps its ranked result
at the payload's `limit`, which the controller always sets to 10. -/
def oracleRespectsLimit (env : Env) : Prop :=
  ∀ recs, env.oracle = .ok recs → recs.length ≤ 10

/-- Modelled from the spec: the scoring oracle ranks the candidates it was
given, so every identifier a successful response carries names a resource of
the payload's tenant-scoped catalog. -/
def oracleFromCatalog (env : Env) : Prop :=
  ∀ recs, env.oracle = .ok recs → ∀ rc ∈ recs,
    ((resolveId rc).all fun s =>
      (formattedResourcesOf env).any fun fr => fr._id == s) = true

/-- The reconciled fallback-path output of the handler. -/
def fallbackOut (env : Env) : List OracleRec :=
  dedupRecs (env.shuffle (formattedResourcesOf env)) []
    (fallbackRecs (env.shuffle (formattedResourcesOf env)))

/-! ### Concrete example data, used to exercise the theorems -/

/-- Example requester. -/
def exU1 : User :=
  { _id := "u1", company := "acme", role := "employee", name := "Avery",
    skills := [{ skillId := "s1", level := 2 }], companySettings := none }

/-- Example same-tenant peer with no skills and no plan history. -/
def exU2 : User :=
  { _id := "u2", company := "acme", role := "employee", name := "Dana",
    skills := [], companySettings := none }

/-- Example same-tenant peer with skills and history. -/
def exU3 : User :=
  { _id := "u3", company := "acme", role := "employee", name := "Kim",
    skills := [{ skillId := "s2", level := 3 }], companySettings := none }

/-- Example user of a different tenant. -/
def exU9 : User :=
  { _id := "u9", company := "globex", role := "employee", name := "Bo",
    skills := [], companySettings := none }

/-- Example resource with the `"Unknown"` provider sentinel, created by Dana. -/
def exR1 : Resource :=
  { _id := "r1", title := "T1", provider := some "Unknown",
    type := "course", url := "http://a", duration := "1h", createdBy := "u2",
    skill := some "s1" }

/-- Example resource with a real provider. -/
def exR2 : Resource :=
  { _id := "r2", title := "T2", provider := some "Coursera",
    type := "video", url := "http://b", duration := "2h", createdBy := "u1",
    skill := some "s2" }

/-- Example resource created in the other tenant. -/
def exR9 : Resource :=
  { _id := "r9", title := "T9", provider := some "X",
    type := "course", url := "http://c", duration := "3h", createdBy := "u9",
    skill := none }

/-- Older draft development plan of the requester. -/
def exIdpOld : Idp :=
  { employee := "u1", status := "draft", goals := "old goals",
    createdAt := 1, recommendedResources := [] }

/-- Newer approved development plan of the requester. -/
def exIdpNew : Idp :=
  { employee := "u1", status := "approved", goals := "new goals",
    createdAt := 2, recommendedResources := [] }

/-- Completed plan of peer Kim with a duplicated resource association. -/
def exIdpPeer : Idp :=
  { employee := "u3", status := "completed", goals := "",
    createdAt := 3, recommendedResources := ["r1", "r1", "r2"] }

/-- Oracle item carrying its id in `resourceId` and echoing `"Unknown"`. -/
def exRecA : OracleRec :=
  { resourceId := some "r1", _id := none, id := none,
    title := some "T1", provider := some "Unknown", type := none, url := none,
    duration := none, author := none }

/-- Oracle item duplicating `r1` through the `_id` field. -/
def exRecDup : OracleRec :=
  { resourceId := none, _id := some "r1", id := none,
    title := none, provider := none, type := none, url := none, duration := none,
    author := none }

/-- Oracle item with no identifier in any of the three fields. -/
def exRecNoId : OracleRec :=
  { resourceId := none, _id := none, id := none,
    title := none, provider := none, type := none, url := none, duration := none,
    author := none }

/-- Oracle item carrying its id in `id` and omitting the provider. -/
def exRecB : OracleRec :=
  { resourceId := none, _id := none, id := some "r2",
    title := none, provider := none, type := none, url := none, duration := none,
    author := none }

/-- Example oracle response exercising the identifier union, duplication and
missing-id cases. -/
def exRecs : List OracleRec := [exRecA, exRecDup, exRecNoId, exRecB]

/-- Example environment on the oracle path. -/
def exEnv : Env :=
  { reqUserId := "u1", reqUserCompany := "acme",
    targetSkills := [{ skillId := "s2", targetLevel := 4 }],
    users := [exU1, exU2, exU3, exU9],
    skills := [{ _id := "s1", name := "JS" }, { _id := "s2", name := "Go" }],
    resources := [exR1, exR2, exR9], idps := [exIdpOld, exIdpNew, exIdpPeer],
    reports := [], adminLookupFails := false, legacyFile := none,
    oracle := Lookup.ok exRecs, shuffle := fun l => l,
    failFindUser := false, failLatestIdp := false, failReports := false,
    failSkillFind := false, failCompanyUsers := false, failResourceFind := false,
    failPeerUsers := false, failPeerIdps := false }

/-- The same environment with the oracle call failing. -/
def exEnvFb : Env :=
  { exEnv with oracle := Lookup.err }

/-- The same environment with an unknown requester. -/
def exEnvNotFound : Env :=
  { exEnv with reqUserId := "ghost" }

/-- The same environment with the skill-taxonomy fetch rejecting. -/
def exEnvFail : Env :=
  { exEnv with failSkillFind := true }

/-- First reconciled item of the oracle path on `exEnv`. -/
def exOutA : OracleRec :=
  { exRecA with provider := some "Dana" }

/-- Second reconciled item of the oracle path on `exEnv`. -/
def exOutB : OracleRec :=
  { exRecB with provider := some "Coursera" }

/-- The reconciled oracle-path output on `exEnv`. -/
def exOut : List OracleRec := [exOutA, exOutB]

/-- The formatted view of `exR1`. -/
def exFr1 : FormattedResource :=
  { _id := "r1", title := "T1", provider := "Dana",
    type := "course", url := "http://a", duration := "1h", createdByName := some "Dana" }

/-- The peer entry emitted for Kim. -/
def exPeerEntry : PeerEntry :=
  { userId := "u3",
    skills := [{ skillId := "s2", level := 3 }], resources := ["r1", "r2"] }

/-- A legacy on-disk weight configuration distinct from the defaults. -/
def exLegacyWeights : Weights :=
  { skill_gap := 1/2, skill_relevance := 1/2,
    difficulty_match := 0, collaborative := 0, resource_type := 0,
    skill_similarity := 0 }

/-! ### Helper lemmas about the reconciler -/

/-- The provider backfill never touches the identifier fields. -/
theorem backfillRec_resolveId (cands : List FormattedResource) (rc : OracleRec) :
    resolveId (backfillRec cands rc) = resolveId rc := by
  unfold backfillRec
  split
  · split <;> rfl
  · rfl

/-- `List.contains` on strings decides membership. -/
theorem contains_eq_mem (a : String) (seen : List String) :
    seen.contains a = true ↔ a ∈ seen := List.elem_iff

/-- Membership in first-occurrence string deduplication. -/
theorem mem_dedupStrings (l : List String) :
    ∀ seen s, s ∈ dedupStrings seen l ↔ s ∈ l ∧ s ∉ seen := by
  induction l with
  | nil => intro seen s; simp [dedupStrings]
  | cons a t ih =>
    intro seen s
    simp only [dedupStrings]
    by_cases h : a ∈ seen
    · rw [if_pos ((contains_eq_mem a seen).mpr h), ih]
      simp only [List.mem_cons]
      constructor
      · exact fun hp => ⟨Or.inr hp.1, hp.2⟩
      · rintro ⟨rfl | hs, hns⟩
        · exact absurd h hns
        · exact ⟨hs, hns⟩
    · rw [if_neg (fun hc => h ((contains_eq_mem a seen).mp hc))]
      simp only [List.mem_cons, ih]
      constructor
      · rintro (rfl | ⟨hs, hns⟩)
        · exact ⟨Or.inl rfl, h⟩
        · exact ⟨Or.inr hs, fun hm => hns (Or.inr hm)⟩
      · rintro ⟨rfl | hs, hns⟩
        · exact Or.inl rfl
        · by_cases hsa : s = a
          · exact Or.inl hsa
          · exact Or.inr ⟨hs, fun hm => hm.elim hsa hns⟩

/-- First-occurrence string deduplication produces no duplicates. -/
theorem nodup_dedupStrings (l : List String) :
    ∀ seen, (dedupStrings seen l).Nodup := by
  induction l with
  | nil => intro seen; simp [dedupStrings]
  | cons a t ih =>
    intro seen
    simp only [dedupStrings]
    by_cases h : a ∈ seen
    · rw [if_pos ((contains_eq_mem a seen).mpr h)]
      exact ih seen
    · rw [if_neg (fun hc => h ((contains_eq_mem a seen).mp hc))]
      refine List.nodup_cons.mpr ⟨fun hmem => ?_, ih _⟩
      exact ((mem_dedupStrings t _ a).mp hmem).2 (List.mem_cons_self _ _)

/-- The identifiers of the reconciled list are exactly the first-occurrence
deduplication of the truthy identifiers of the incoming list. -/
theorem dedupRecs_ids (cands : List FormattedResource) (recs : List OracleRec) :
    ∀ seen, (dedupRecs cands seen recs).filterMap resolveId =
      dedupStrings seen ((recs.filterMap resolveId).filter (fun s => s != "")) := by
  induction recs with
  | nil => intro seen; rfl
  | cons rc rest ih =>
    intro seen
    cases h : resolveId rc with
    | none =>
      simp only [dedupRecs, h, List.filterMap_cons]
      exact ih seen
    | some s =>
      simp only [dedupRecs, h, List.filterMap_cons, List.filter_cons]
      by_cases hs : s = ""
      · subst hs
        rw [if_neg (by simp), if_neg (by simp)]
        exact ih seen
      · cases hseen : seen.contains s with
        | true =>
          rw [if_neg (by simp [hseen]), if_pos (by simp [hs])]
          simp only [dedupStrings]
          rw [if_pos hseen]
          exact ih seen
        | false =>
          rw [if_pos (by simp [hs, hseen]), if_pos (by simp [hs])]
          rw [List.filterMap_cons_some (by rw [backfillRec_resolveId, h])]
          simp only [dedupStrings]
          rw [if_neg (by rw [hseen]; simp)]
          rw [ih (s :: seen)]

/-- The reconciled list is a sublist of the provider-backfilled incoming
list: order is preserved and nothing is re-filled. -/
theorem dedupRecs_sublist (cands : List FormattedResource) (recs : List OracleRec) :
    ∀ seen, List.Sublist (dedupRecs cands seen recs) (recs.map (backfillRec cands)) := by
  induction recs with
  | nil => intro seen; simp [dedupRecs]
  | cons rc rest ih =>
    intro seen
    simp only [List.map_cons]
    cases h : resolveId rc with
    | none =>
      simp only [dedupRecs, h]
      exact (ih seen).cons _
    | some s =>
      simp only [dedupRecs, h]
      cases hcond : (s != "" && !seen.contains s) with
      | true =>
        rw [if_pos rfl]
        exact (ih _).cons₂ _
      | false =>
        rw [if_neg (by simp)]
        exact (ih seen).cons _

/-- Every reconciled recommendation carries a truthy resolved identifier. -/
theorem dedupRecs_mem_id (cands : List FormattedResource) (recs : List OracleRec) :
    ∀ seen, ∀ rc ∈ dedupRecs cands seen recs, ∃ s, resolveId rc = some s ∧ s ≠ "" := by
  induction recs with
  | nil => intro seen rc hrc; simp [dedupRecs] at hrc
  | cons rc0 rest ih =>
    intro seen rc hrc
    cases h : resolveId rc0 with
    | none =>
      simp only [dedupRecs, h] at hrc
      exact ih seen rc hrc
    | some s =>
      simp only [dedupRecs, h] at hrc
      cases hcond : (s != "" && !seen.contains s) with
      | true =>
        rw [if_pos hcond] at hrc
        rcases List.mem_cons.mp hrc with rfl | hmem
        · refine ⟨s, ?_, ?_⟩
          · rw [backfillRec_resolveId, h]
          · simp only [Bool.and_eq_true, bne_iff_ne, ne_eq] at hcond
            exact hcond.1
        · exact ih _ rc hmem
      | false =>
        rw [hcond] at hrc
        rw [if_neg (by simp)] at hrc
        exact ih seen rc hrc

/-- The reconciler never lengthens the list it is given. -/
theorem dedupRecs_length (cands : List FormattedResource) (recs : List OracleRec)
    (seen : List String) : (dedupRecs cands seen recs).length ≤ recs.length := by
  have h := (dedupRecs_sublist cands recs seen).length_le
  simpa using h

/-- An intermediate best-so-far that nothing remaining strictly beats
survives the latest-document scan. -/
theorem pickLatest_inv (l : List Idp) :
    ∀ p j, (j = p ∨ (p ∈ l ∧ j.createdAt < p.createdAt)) →
      (∀ q ∈ l, q = p ∨ q.createdAt < p.createdAt) →
      pickLatest l (some j) = some p := by
  induction l with
  | nil =>
    intro p j hinv _
    rcases hinv with rfl | ⟨hp, _⟩
    · rfl
    · exact absurd hp (List.not_mem_nil p)
  | cons i rest ih =>
    intro p j hinv hall
    simp only [pickLatest]
    rcases hall i (List.mem_cons_self _ _) with rfl | hilt
    · rcases hinv with rfl | ⟨_, hjlt⟩
      · rw [if_neg (lt_irrefl _)]
        exact ih j j (Or.inl rfl) (fun q hq => hall q (List.mem_cons_of_mem _ hq))
      · rw [if_pos hjlt]
        exact ih i i (Or.inl rfl) (fun q hq => hall q (List.mem_cons_of_mem _ hq))
    · rcases hinv with rfl | ⟨hpmem, hjlt⟩
      · rw [if_neg (fun hc => absurd (lt_trans hc hilt) (lt_irrefl _))]
        exact ih j j (Or.inl rfl) (fun q hq => hall q (List.mem_cons_of_mem _ hq))
      · have hp' : p ∈ rest := by
          rcases List.mem_cons.mp hpmem with rfl | hmem
          · exact absurd hilt (lt_irrefl _)
          · exact hmem
        by_cases hcond : j.createdAt < i.createdAt
        · rw [if_pos hcond]
          exact ih p i (Or.inr ⟨hp', hilt⟩) (fun q hq => hall q (List.mem_cons_of_mem _ hq))
        · rw [if_neg hcond]
          exact ih p j (Or.inr ⟨hp', hjlt⟩) (fun q hq => hall q (List.mem_cons_of_mem _ hq))

/-- The latest-document scan finds the strictly most recent element. -/
theorem pickLatest_max (l : List Idp) (p : Idp) (hp : p ∈ l)
    (hall : ∀ q ∈ l, q = p ∨ q.createdAt < p.createdAt) :
    pickLatest l none = some p := by
  cases l with
  | nil => exact absurd hp (List.not_mem_nil p)
  | cons i rest =>
    simp only [pickLatest]
    rcases hall i (List.mem_cons_self _ _) with rfl | hilt
    · exact pickLatest_inv rest i i (Or.inl rfl)
        (fun q hq => hall q (List.mem_cons_of_mem _ hq))
    · have hp' : p ∈ rest := by
        rcases List.mem_cons.mp hp with rfl | hmem
        · exact absurd hilt (lt_irrefl _)
        · exact hmem
      exact pickLatest_inv rest p i (Or.inr ⟨hp', hilt⟩)
        (fun q hq => hall q (List.mem_cons_of_mem _ hq))

/-- With a reachable admin store, `getWeights` returns the admin weights if
configured and otherwise the legacy tier. -/
theorem getWeights_eq (users : List User) (company : String)
    (legacy : Option (Lookup Weights)) :
    getWeights users company false legacy =
      match adminWeights users company with
      | some w => w
      | none => legacyTier legacy := by
  unfold getWeights adminWeights
  rw [if_neg (by simp)]
  cases users.find? (fun u => u.company == company && u.role == "admin") with
  | none => rfl
  | some a =>
    simp only [Option.bind]
    cases a.companySettings with
    | none => rfl
    | some cs =>
      simp only [Option.bind]

/-- A successful handler outcome is the reconciliation of either the oracle
response (oracle path) or the shuffled fallback sample (fallback path). -/
theorem getSuggestions_ok (env : Env) (out : List OracleRec)
    (h : getSuggestions env = Response.ok out) :
    (∃ recs, env.oracle = Lookup.ok recs ∧
      out = dedupRecs (formattedResourcesOf env) [] recs) ∨
    (env.oracle = Lookup.err ∧
      out = dedupRecs (env.shuffle (formattedResourcesOf env)) []
        (fallbackRecs (env.shuffle (formattedResourcesOf env)))) := by
  unfold getSuggestions at h
  split at h
  · exact Response.noConfusion h
  split at h
  · exact Response.noConfusion h
  split at h
  · exact Response.noConfusion h
  split at h
  · exact Response.noConfusion h
  split at h
  · exact Response.noConfusion h
  split at h
  · exact Response.noConfusion h
  split at h
  · exact Response.noConfusion h
  split at h
  · exact Response.noConfusion h
  split at h
  · exact Response.noConfusion h
  cases horacle : env.oracle with
  | ok recs =>
    rw [horacle] at h
    simp only [Response.ok.injEq] at h
    exact Or.inl ⟨recs, rfl, h.symm⟩
  | err =>
    rw [horacle] at h
    simp only [Response.ok.injEq] at h
    exact Or.inr ⟨rfl, h.symm⟩


/-- With every aggregation await resolving and the requester found, the
handler returns the reconciled oracle response, or on oracle failure the
reconciled fallback sample. -/
theorem getSuggestions_noFail (env : Env) (u : User)
    (hflags : noAggFailure env = true)
    (hfind : env.users.find? (fun x => x._id == env.reqUserId) = some u) :
    getSuggestions env =
      match env.oracle with
      | Lookup.ok recs => Response.ok (dedupRecs (formattedResourcesOf env) [] recs)
      | Lookup.err => Response.ok (fallbackOut env) := by
  simp only [noAggFailure, Bool.and_eq_true, Bool.not_eq_true'] at hflags
  obtain ⟨⟨⟨⟨⟨⟨⟨h1, h2⟩, h3⟩, h4⟩, h5⟩, h6⟩, h7⟩, h8⟩ := hflags
  unfold getSuggestions fallbackOut
  simp only [h1, h2, h3, h4, h5, h6, h7, h8, hfind, Bool.false_eq_true, if_false]

/-- The 404 outcome characterised: it happens exactly when the requester
lookup resolves to no user. -/
theorem getSuggestions_notFound_iff (env : Env) :
    getSuggestions env = Response.notFound ↔
      env.failFindUser = false ∧
        env.users.find? (fun u => u._id == env.reqUserId) = none := by
  cases hf : env.failFindUser with
  | true =>
    unfold getSuggestions
    simp [hf]
  | false =>
    cases hfind : env.users.find? (fun u => u._id == env.reqUserId) with
    | none =>
      unfold getSuggestions
      simp [hf, hfind]
    | some u =>
      unfold getSuggestions
      simp only [hfind, Bool.false_eq_true, if_false]
      constructor
      · intro h
        exfalso
        split at h
        · exact Response.noConfusion h
        split at h
        · exact Response.noConfusion h
        split at h
        · exact Response.noConfusion h
        split at h
        · exact Response.noConfusion h
        split at h
        · exact Response.noConfusion h
        split at h
        · exact Response.noConfusion h
        split at h
        · exact Response.noConfusion h
        split at h
        · exact Response.noConfusion h
        split at h
        · exact Response.noConfusion h
        · exact Response.noConfusion h
      · rintro ⟨_, hc⟩
        exact Option.noConfusion hc


/-! ### The claims -/

/-- **C1**: on both the oracle path and the fallback path, the successful
response contains no duplicate resource identifiers: the reconciler walks the
sequence once in original order, resolves each identifier through the
`resourceId` / `_id` / `id` union (`resolveId`), keeps first occurrences and
discards later duplicates, preserving first-seen order (the output is a
sublist of the backfilled input and its identifiers are the first-occurrence
deduplication of the input's truthy identifiers). -/
theorem claim1_dedup (env : Env) (out : List OracleRec)
    (h : getSuggestions env = Response.ok out) :
    (out.filterMap resolveId).Nodup ∧
      ∀ cands recs,
        List.Sublist (dedupRecs cands [] recs) (recs.map (backfillRec cands)) ∧
          (dedupRecs cands [] recs).filterMap resolveId =
            dedupStrings [] ((recs.filterMap resolveId).filter (fun s => s != "")) := by
  constructor
  · rcases getSuggestions_ok env out h with ⟨recs, _, rfl⟩ | ⟨_, rfl⟩
    · rw [dedupRecs_ids]
      exact nodup_dedupStrings _ _
    · rw [dedupRecs_ids]
      exact nodup_dedupStrings _ _
  · exact fun cands recs => ⟨dedupRecs_sublist cands recs [], dedupRecs_ids cands recs []⟩

/-- **C1 witness**: evaluated on the concrete oracle-path environment. -/
theorem claim1_witness : (exOut.filterMap resolveId).Nodup :=
  (claim1_dedup exEnv exOut (by decide)).1

/-- **C10**: every entry of a successful response carries a non-empty
identifier in the `resourceId` / `_id` / `id` union, and an item whose three
identifier fields are all absent or falsy is dropped from the reconciled
output entirely. -/
theorem claim10_ids (env : Env) (out : List OracleRec)
    (h : getSuggestions env = Response.ok out) :
    (∀ rc ∈ out, ∃ s, resolveId rc = some s ∧ s ≠ "") ∧
      ∀ cands seen rc rest, (resolveId rc = none ∨ resolveId rc = some "") →
        dedupRecs cands seen (rc :: rest) = dedupRecs cands seen rest := by
  constructor
  · rcases getSuggestions_ok env out h with ⟨recs, _, rfl⟩ | ⟨_, rfl⟩
    · exact dedupRecs_mem_id _ _ _
    · exact dedupRecs_mem_id _ _ _
  · intro cands seen rc rest hid
    rcases hid with hid | hid
    · simp only [dedupRecs, hid]
    · simp only [dedupRecs, hid]
      rw [if_neg (by simp)]

/-- **C10 witness**: the id-less oracle item is dropped, not kept. -/
theorem claim10_witness :
    dedupRecs (formattedResourcesOf exEnv) [] [exRecNoId] = [] :=
  (claim10_ids exEnv exOut (by decide)).2 (formattedResourcesOf exEnv) [] exRecNoId []
    (Or.inl rfl)

/-- **C3**: the successful response never exceeds the configured limit, whose
default is 10 (given the oracle's contract of respecting the payload limit on
the oracle path); truncation precedes reconciliation, and deduplication never
lengthens a list, so it may only yield fewer results, never re-fill. -/
theorem claim3_limit (env : Env) (out : List OracleRec)
    (hor : oracleRespectsLimit env)
    (h : getSuggestions env = Response.ok out) :
    out.length ≤ 10 ∧ (∀ u, (payloadOf env u).limit = 10) ∧
      ∀ cands recs, (dedupRecs cands [] recs).length ≤ recs.length := by
  refine ⟨?_, fun u => rfl, fun cands recs => dedupRecs_length cands recs []⟩
  rcases getSuggestions_ok env out h with ⟨recs, horc, rfl⟩ | ⟨_, rfl⟩
  · exact le_trans (dedupRecs_length _ _ _) (hor recs horc)
  · refine le_trans (dedupRecs_length _ _ _) ?_
    simp only [fallbackRecs, List.length_map, List.length_take]
    exact min_le_left _ _

/-- **C3 witness**: evaluated on the concrete oracle-path environment. -/
theorem claim3_witness : exOut.length ≤ 10 :=
  (claim3_limit exEnv exOut (fun recs hrecs => by cases hrecs; decide) (by decide)).1


/-- A fallback item resolves to the sampled candidate's id. -/
theorem resolveId_fallbackRec (r : FormattedResource) (s : String)
    (h : resolveId (fallbackRec r) = some s) : s = r._id := by
  cases hid : (r._id != "") with
  | true =>
    simp [resolveId, fallbackRec, jsOr, truthy, hid] at h
    exact h.symm
  | false =>
    simp [resolveId, fallbackRec, jsOr, truthy, hid] at h

/-- **C2**: whenever the oracle call fails, the engine recovers locally: the
response is the reconciled random sample of the tenant's candidates, a
well-formed 200 outcome, never an error; the sample is capped at 10, every
entry names a tenant candidate, and with zero candidates the response is the
empty list. -/
theorem claim2_fallback (env : Env) (u : User)
    (horacle : env.oracle = Lookup.err)
    (hflags : noAggFailure env = true)
    (hfind : env.users.find? (fun x => x._id == env.reqUserId) = some u)
    (hshuffle : ∀ l, List.Perm (env.shuffle l) l) :
    getSuggestions env = Response.ok (fallbackOut env) ∧
      (fallbackOut env).length ≤ 10 ∧
      (∀ rc ∈ fallbackOut env, ∃ s, resolveId rc = some s ∧
        s ∈ (formattedResourcesOf env).map (fun fr => fr._id)) ∧
      (formattedResourcesOf env = [] → fallbackOut env = []) := by
  refine ⟨?_, ?_, ?_, ?_⟩
  · rw [getSuggestions_noFail env u hflags hfind, horacle]
  · refine le_trans (dedupRecs_length _ _ _) ?_
    simp only [fallbackRecs, List.length_map, List.length_take]
    exact min_le_left _ _
  · intro rc hrc
    obtain ⟨s, hs, hsne⟩ := dedupRecs_mem_id _ _ _ rc hrc
    refine ⟨s, hs, ?_⟩
    have hsub := (dedupRecs_sublist _ _ []).subset hrc
    rcases List.mem_map.mp hsub with ⟨rc0, hrc0, rfl⟩
    rw [backfillRec_resolveId] at hs
    rcases List.mem_map.mp hrc0 with ⟨fr, hfrtake, rfl⟩
    have hfr : fr ∈ formattedResourcesOf env :=
      (hshuffle _).subset (List.mem_of_mem_take hfrtake)
    have hsid := resolveId_fallbackRec fr s hs
    exact hsid ▸ List.mem_map_of_mem _ hfr
  · intro hcand
    unfold fallbackOut
    rw [hcand]
    have hperm := hshuffle (formattedResourcesOf env)
    rw [hcand] at hperm
    rw [hperm.eq_nil]
    rfl

/-- **C2 witness**: the fallback path evaluated on the concrete environment
with a failing oracle. -/
theorem claim2_witness :
    getSuggestions exEnvFb = Response.ok (fallbackOut exEnvFb) ∧
      (fallbackOut exEnvFb).length ≤ 10 :=
  ⟨(claim2_fallback exEnvFb exU1 rfl (by decide) (by decide)
      (fun l => List.Perm.refl l)).1,
   (claim2_fallback exEnvFb exU1 rfl (by decide) (by decide)
      (fun l => List.Perm.refl l)).2.1⟩

/-- **C4**: a resource created by a user of another tenant is absent from the
candidate catalog sent to the oracle, and no successful response on either
path resolves to its identifier (given unique store ids and the oracle's
contract of ranking only the given catalog). -/
theorem claim4_isolation (env : Env)
    (husers : (env.users.map (fun u => u._id)).Nodup)
    (hres : (env.resources.map (fun r => r._id)).Nodup)
    (hcat : oracleFromCatalog env)
    (hshuffle : ∀ l, List.Perm (env.shuffle l) l)
    (r : Resource) (hr : r ∈ env.resources)
    (u : User) (hu : u ∈ env.users) (hcreated : r.createdBy = u._id)
    (hcompany : u.company ≠ env.reqUserCompany) :
    (∀ usr, r._id ∉ ((payloadOf env usr).resources.map (fun fr => fr._id))) ∧
      ∀ out, getSuggestions env = Response.ok out →
        ∀ rc ∈ out, resolveId rc ≠ some r._id := by
  have hnotin : r._id ∉ (formattedResourcesOf env).map (fun fr => fr._id) := by
    intro hmem
    rcases List.mem_map.mp hmem with ⟨fr, hfr, hfrid⟩
    simp only [formattedResourcesOf] at hfr
    rcases List.mem_map.mp hfr with ⟨r', hr', rfl⟩
    have hrid : r'._id = r._id := hfrid
    simp only [allResourcesOf] at hr'
    have hr'mem : r' ∈ env.resources := List.mem_of_mem_filter hr'
    have hr'r : r' = r := List.inj_on_of_nodup_map hres hr'mem hr hrid
    subst hr'r
    have hcond := (List.mem_filter.mp hr').2
    have hmem2 := (contains_eq_mem _ _).mp hcond
    simp only [companyUserIds] at hmem2
    rcases List.mem_map.mp hmem2 with ⟨u', hu', huid⟩
    have hu'mem : u' ∈ env.users := List.mem_of_mem_filter hu'
    have hu'comp : u'.company = env.reqUserCompany :=
      eq_of_beq (List.mem_filter.mp hu').2
    have hu'u : u' = u := List.inj_on_of_nodup_map husers hu'mem hu (huid.trans hcreated)
    subst hu'u
    exact hcompany hu'comp
  refine ⟨fun usr => hnotin, ?_⟩
  intro out hout rc hrc heq
  rcases getSuggestions_ok env out hout with ⟨recs, horc, rfl⟩ | ⟨_, rfl⟩
  · have hsub := (dedupRecs_sublist _ _ []).subset hrc
    rcases List.mem_map.mp hsub with ⟨rc0, hrc0, rfl⟩
    rw [backfillRec_resolveId] at heq
    have hall := hcat recs horc rc0 hrc0
    rw [heq] at hall
    simp only [Option.all] at hall
    rcases List.any_eq_true.mp hall with ⟨fr, hfr, hfrid⟩
    exact hnotin (List.mem_map.mpr ⟨fr, hfr, eq_of_beq hfrid⟩)
  · have hsub := (dedupRecs_sublist _ _ []).subset hrc
    rcases List.mem_map.mp hsub with ⟨rc0, hrc0, rfl⟩
    rw [backfillRec_resolveId] at heq
    rcases List.mem_map.mp hrc0 with ⟨fr, hfrtake, rfl⟩
    have hfr : fr ∈ formattedResourcesOf env :=
      (hshuffle _).subset (List.mem_of_mem_take hfrtake)
    have hsid := resolveId_fallbackRec fr _ heq
    exact hnotin (hsid ▸ List.mem_map_of_mem _ hfr)

/-- **C4 witness**: on the concrete environment, the other-tenant resource
`r9` is in neither the candidate catalog nor the reconciled response. -/
theorem claim4_witness :
    ("r9" ∉ ((payloadOf exEnv exU1).resources.map (fun fr => fr._id))) ∧
      resolveId exOutA ≠ some "r9" :=
  ⟨(claim4_isolation exEnv (by decide) (by decide)
      (fun recs hrecs => by cases hrecs; decide) (fun l => List.Perm.refl l)
      exR9 (by decide) exU9 (by decide) rfl (by decide)).1 exU1,
   (claim4_isolation exEnv (by decide) (by decide)
      (fun recs hrecs => by cases hrecs; decide) (fun l => List.Perm.refl l)
      exR9 (by decide) exU9 (by decide) rfl (by decide)).2 exOut (by decide)
      exOutA (by decide)⟩


/-- **C5 counterexample**: the claim says that on a store lookup error the
resolver falls through to the next tier (the legacy file); in the code the
outer catch returns the hard-coded defaults directly, skipping a present,
well-formed legacy configuration. -/
theorem claim5_counterexample :
    getWeights [] "acme" true (some (Lookup.ok exLegacyWeights)) = DEFAULT_WEIGHTS ∧
      getWeights [] "acme" true (some (Lookup.ok exLegacyWeights)) ≠ exLegacyWeights := by
  refine ⟨rfl, ?_⟩
  intro h
  rw [show getWeights [] "acme" true (some (Lookup.ok exLegacyWeights)) =
    DEFAULT_WEIGHTS from rfl] at h
  have hg := congrArg Weights.skill_gap h
  simp only [DEFAULT_WEIGHTS, exLegacyWeights] at hg
  norm_num at hg

/-- **C5 (amended)**: weight resolution is total with tiers
admin-configured → legacy file → defaults and no merging; a malformed or
absent legacy file falls through to the hard-coded defaults, and a tenant
with no admin weights and no legacy file gets exactly the defaults — but an
admin-store lookup error skips the legacy tier and returns the hard-coded
defaults directly. -/
theorem claim5_amended (users : List User) (company : String)
    (legacy : Option (Lookup Weights)) :
    getWeights users company true legacy = DEFAULT_WEIGHTS ∧
      (∀ w, adminWeights users company = some w →
        getWeights users company false legacy = w) ∧
      (adminWeights users company = none →
        getWeights users company false legacy = legacyTier legacy) ∧
      legacyTier none = DEFAULT_WEIGHTS ∧
      legacyTier (some Lookup.err) = DEFAULT_WEIGHTS ∧
      (∀ w, legacyTier (some (Lookup.ok w)) = w) := by
  refine ⟨?_, ?_, ?_, rfl, rfl, fun w => rfl⟩
  · unfold getWeights
    rw [if_pos rfl]
  · intro w hw
    rw [getWeights_eq, hw]
  · intro hw
    rw [getWeights_eq, hw]

/-- **C5 witness**: the amended statement evaluated on a tenant with no admin
weights and no legacy file. -/
theorem claim5_witness :
    getWeights [] "acme" true none = DEFAULT_WEIGHTS ∧
      getWeights [] "acme" false none = legacyTier none :=
  ⟨(claim5_amended [] "acme" none).1, (claim5_amended [] "acme" none).2.2.1 rfl⟩

/-- **C6**: the goal text sent to the oracle is the `goals` field of the
requester's most recently created plan with status draft, pending or
approved, and the empty string when no such plan exists; in particular with
an older draft and a newer approved plan it is the newer plan's goals. -/
theorem claim6_goaltext (env : Env) :
    ((∀ q ∈ env.idps, q.employee = env.reqUserId → eligibleStatus q.status = false) →
      goalTextOf env = "") ∧
      ∀ p ∈ env.idps, p.employee = env.reqUserId → eligibleStatus p.status = true →
        (∀ q ∈ env.idps, q.employee = env.reqUserId → eligibleStatus q.status = true →
          q ≠ p → q.createdAt < p.createdAt) →
        goalTextOf env = p.goals := by
  constructor
  · intro hnone
    have hempty : requesterIdps env = [] := by
      simp only [requesterIdps]
      rw [List.filter_eq_nil_iff]
      intro q hq hcond
      rw [Bool.and_eq_true] at hcond
      have hemp := eq_of_beq hcond.1
      have hfalse := hnone q hq hemp
      rw [hfalse] at hcond
      exact Bool.noConfusion hcond.2
    unfold goalTextOf latestIdp
    rw [hempty]
    rfl
  · intro p hp hemp hstat hmax
    have hpmem : p ∈ requesterIdps env := by
      simp only [requesterIdps, List.mem_filter]
      exact ⟨hp, by simp [hemp, hstat]⟩
    have hall : ∀ q ∈ requesterIdps env, q = p ∨ q.createdAt < p.createdAt := by
      intro q hq
      simp only [requesterIdps, List.mem_filter] at hq
      obtain ⟨hq1, hq2⟩ := hq
      rw [Bool.and_eq_true] at hq2
      by_cases hqp : q = p
      · exact Or.inl hqp
      · exact Or.inr (hmax q hq1 (eq_of_beq hq2.1) hq2.2 hqp)
    unfold goalTextOf latestIdp
    rw [pickLatest_max (requesterIdps env) p hpmem hall]

/-- **C6 witness**: older draft plus newer approved plan yields the newer
plan's goals. -/
theorem claim6_witness : goalTextOf exEnv = "new goals" :=
  (claim6_goaltext exEnv).2 exIdpNew (by decide) (by decide) (by decide) (by decide)

/-- **C7**: provider backfill — a candidate whose provider is absent or the
`"Unknown"` sentinel gets its creator's display name, and a recommendation
whose provider is absent or `"Unknown"` and that matches a candidate gets
that candidate's resolved provider. -/
theorem claim7_provider (env : Env) :
    (∀ r ∈ allResourcesOf env, ∀ u,
      env.users.find? (fun x => x._id == r.createdBy) = some u →
      (truthy r.provider = false ∨ r.provider = some "Unknown") →
      (formatResource env r).provider = u.name) ∧
      ∀ cands rc c, findOriginal cands (resolveId rc) = some c →
        (truthy rc.provider = false ∨ rc.provider = some "Unknown") →
        (backfillRec cands rc).provider = some c.provider := by
  constructor
  · intro r _ u hu hprov
    unfold formatResource
    rw [hu]
    have hcond : (truthy r.provider && r.provider != some "Unknown") = false := by
      rcases hprov with hpf | hpu
      · simp [hpf]
      · simp [hpu, truthy]
    simp [hcond]
  · intro cands rc c hc hprov
    unfold backfillRec
    rw [hc]
    have hcond : (!truthy rc.provider || rc.provider == some "Unknown") = true := by
      rcases hprov with hpf | hpu
      · simp [hpf]
      · simp [hpu]
    simp [hcond]

/-- **C7 witness**: the `"Unknown"`-provider candidate created by Dana
yields provider `"Dana"` at both stages. -/
theorem claim7_witness :
    (formatResource exEnv exR1).provider = "Dana" ∧
      (backfillRec (formattedResourcesOf exEnv) exRecA).provider = some "Dana" :=
  ⟨(claim7_provider exEnv).1 exR1 (by decide) exU2 (by decide) (Or.inr rfl),
   (claim7_provider exEnv).2 (formattedResourcesOf exEnv) exRecA exFr1 (by decide)
     (Or.inr rfl)⟩

/-- **C8**: peer aggregation — every emitted peer is a same-tenant user other
than the requester; its resource set is the duplicate-free grouping of the
recommended-resource ids of that peer's approved/completed plans; and a peer
with empty skills and an empty resource set is excluded. -/
theorem claim8_peers (env : Env) :
    (∀ p ∈ peerDataOf env, ¬(p.skills = [] ∧ p.resources = [])) ∧
      (∀ p ∈ peerDataOf env, p.resources.Nodup) ∧
      (∀ p ∈ peerDataOf env, ∀ s, s ∈ p.resources ↔
        ∃ i ∈ env.idps, i.employee = p.userId ∧ peerStatus i.status = true ∧
          s ∈ i.recommendedResources) ∧
      ∀ p ∈ peerDataOf env, ∃ pu ∈ env.users,
        pu._id = p.userId ∧ pu.company = env.reqUserCompany ∧
          pu._id ≠ env.reqUserId := by
  have hshape : ∀ p ∈ peerDataOf env, ∃ peer ∈ allPeerUsers env,
      p.userId = peer._id ∧ p.resources = peerResources env peer._id ∧
        (decide (p.resources.length > 0) || decide (p.skills.length > 0)) = true := by
    intro p hp
    simp only [peerDataOf, List.mem_filter, List.mem_map] at hp
    obtain ⟨⟨peer, hpeer, rfl⟩, hcond⟩ := hp
    exact ⟨peer, hpeer, rfl, rfl, hcond⟩
  refine ⟨?_, ?_, ?_, ?_⟩
  · intro p hp ⟨hsk, hres⟩
    obtain ⟨peer, hpeer, hpid, hpres, hcond⟩ := hshape p hp
    rw [hsk, hres] at hcond
    simp at hcond
  · intro p hp
    obtain ⟨peer, hpeer, hpid, hpres, hcond⟩ := hshape p hp
    rw [hpres]
    exact nodup_dedupStrings _ _
  · intro p hp s
    obtain ⟨peer, hpeer, hpid, hpres, hcond⟩ := hshape p hp
    rw [hpres, hpid]
    unfold peerResources
    rw [mem_dedupStrings]
    simp only [List.not_mem_nil, not_false_eq_true, and_true]
    rw [List.mem_flatMap]
    constructor
    · rintro ⟨i, hi, hs⟩
      simp only [List.mem_filter] at hi
      obtain ⟨hi1, hi2⟩ := hi
      simp only [peerIdpsOf, List.mem_filter] at hi1
      obtain ⟨hi3, hi4⟩ := hi1
      rw [Bool.and_eq_true] at hi4
      exact ⟨i, hi3, eq_of_beq hi2, hi4.1, hs⟩
    · rintro ⟨i, hi, hemp, hstat, hs⟩
      refine ⟨i, ?_, hs⟩
      simp only [List.mem_filter]
      refine ⟨?_, by simp [hemp]⟩
      simp only [peerIdpsOf, List.mem_filter]
      refine ⟨hi, ?_⟩
      rw [Bool.and_eq_true]
      refine ⟨hstat, ?_⟩
      rw [List.any_eq_true]
      exact ⟨peer, hpeer, by simp [hemp]⟩
  · intro p hp
    obtain ⟨peer, hpeer, hpid, hpres, hcond⟩ := hshape p hp
    simp only [allPeerUsers, List.mem_filter] at hpeer
    obtain ⟨hpu, hpcond⟩ := hpeer
    rw [Bool.and_eq_true] at hpcond
    refine ⟨peer, hpu, hpid.symm, eq_of_beq hpcond.2, ?_⟩
    intro hcontra
    have := hpcond.1
    rw [bne_iff_ne] at this
    exact this hcontra

/-- **C8 witness**: peer Kim is emitted with the duplicate collapsed, and is
not an empty-signal peer. -/
theorem claim8_witness :
    exPeerEntry ∈ peerDataOf exEnv ∧
      ¬(exPeerEntry.skills = [] ∧ exPeerEntry.resources = []) ∧
      exPeerEntry.resources.Nodup :=
  ⟨by decide, (claim8_peers exEnv).1 exPeerEntry (by decide),
   (claim8_peers exEnv).2.1 exPeerEntry (by decide)⟩

/-- **C9**: a missing requester profile is the only aggregation-stage
condition producing the client-visible not-found response; a rejected
requester lookup, or any other aggregation await rejecting after the
requester was found, produces the generic server-side failure. -/
theorem claim9_errors (env : Env) :
    (getSuggestions env = Response.notFound ↔
      (env.failFindUser = false ∧
        env.users.find? (fun u => u._id == env.reqUserId) = none)) ∧
      (env.failFindUser = true → getSuggestions env = Response.serverError) ∧
      ∀ u, env.users.find? (fun x => x._id == env.reqUserId) = some u →
        (env.failLatestIdp || env.failReports || env.failSkillFind ||
          env.failCompanyUsers || env.failResourceFind || env.failPeerUsers ||
          env.failPeerIdps) = true →
        getSuggestions env = Response.serverError := by
  refine ⟨getSuggestions_notFound_iff env, ?_, ?_⟩
  · intro hf
    unfold getSuggestions
    rw [if_pos hf]
  · intro u hfind hdisj
    cases hf : env.failFindUser with
    | true =>
      unfold getSuggestions
      rw [if_pos hf]
    | false =>
      unfold getSuggestions
      simp only [hf, hfind, Bool.false_eq_true, if_false]
      cases f2 : env.failLatestIdp with
      | true => simp
      | false =>
        simp only [Bool.false_eq_true, if_false]
        cases f3 : env.failReports with
        | true => simp
        | false =>
          simp only [Bool.false_eq_true, if_false]
          cases f4 : env.failSkillFind with
          | true => simp
          | false =>
            simp only [Bool.false_eq_true, if_false]
            cases f5 : env.failCompanyUsers with
            | true => simp
            | false =>
              simp only [Bool.false_eq_true, if_false]
              cases f6 : env.failResourceFind with
              | true => simp
              | false =>
                simp only [Bool.false_eq_true, if_false]
                cases f7 : env.failPeerUsers with
                | true => simp
                | false =>
                  simp only [Bool.false_eq_true, if_false]
                  cases f8 : env.failPeerIdps with
                  | true => simp
                  | false =>
                    simp [f2, f3, f4, f5, f6, f7, f8] at hdisj

/-- **C9 witness**: an unknown requester yields 404 and a rejected
aggregation fetch yields 500 on the concrete environments. -/
theorem claim9_witness :
    getSuggestions exEnvNotFound = Response.notFound ∧
      getSuggestions exEnvFail = Response.serverError :=
  ⟨(claim9_errors exEnvNotFound).1.mpr ⟨rfl, by decide⟩,
   (claim9_errors exEnvFail).2.2 exU1 (by decide) (by decide)⟩

end Optima
